import Mathlib

/-!
Shallow embedding of the email-to-record pipeline of the ai-job-tracker-assistant
repository: the rule-based and AI email classifier (src/ai_email_classifier.py),
the date and company extractors (src/parser_utils.py), the status-inference
cascade and record builder of the Gmail ingestion loop (src/app.py), and the
upsert engine (src/db_utils.py).

Strings are Lean strings; Python substring tests, `lower()`, `title()` and
truthiness are modelled explicitly; timestamps are integers counting seconds;
float confidences are rationals.  External library calls (the Gemini model,
`json.loads`, `dateparser.parse`, `dateutil.parser.parse`, the regex engine of
`extract_company_from_text`) are modelled as explicit outcome values or oracle
parameters; everything else is translated from the source.
-/

namespace JobTracker

/-- `List.isPrefixOf` on characters, as an executable Bool. -/
def isPrefixCh : List Char → List Char → Bool
  | [], _ => true
  | _ :: _, [] => false
  | a :: as, b :: bs => a = b && isPrefixCh as bs

/-- Python `needle in haystack` on lists of characters. -/
def containsCh (needle : List Char) : List Char → Bool
  | [] => needle.isEmpty
  | b :: bs => isPrefixCh needle (b :: bs) || containsCh needle bs

/-- Python `needle in haystack` for strings. -/
def containsStr (needle hay : String) : Bool :=
  containsCh needle.toList hay.toList

/-- Python `s.lower()` (ASCII data throughout this pipeline). -/
def lowerStr (s : String) : String := String.mk (s.toList.map Char.toLower)

/-- Python truthiness of a nullable string: `None` and `""` are falsy. -/
def pyTruthy (o : Option String) : Bool :=
  match o with
  | some s => s ≠ ""
  | none => false

/-- Python `a or b` on nullable strings. -/
def pyOr (a b : Option String) : Option String :=
  if pyTruthy a then a else b

/-- The `EmailClassification` dataclass of src/ai_email_classifier.py. -/
structure EmailClassification where
  category : String
  confidence : ℚ
  reasoning : String
  company : Option String := none
  role : Option String := none
  interview_scheduled : Bool := false
  status_suggestion : String := "applied"
deriving DecidableEq

/-- The fields of the `email_data` dict consumed by the classifier
(`subject`, `from`, `body`, `snippet`). -/
structure EmailData where
  subject : String := ""
  emailFrom : String := ""
  body : String := ""
  snippet : String := ""
deriving DecidableEq

/-- `promotional_indicators` of `_fallback_classification`. -/
def promotionalIndicators : List String :=
  ["job alert", "job recommendation", "unsubscribe", "click here to apply",
   "thousands of jobs", "job match", "career newsletter", "job digest"]

/-- `interview_indicators` of `_fallback_classification`. -/
def interviewIndicators : List String :=
  ["interview scheduled", "interview confirmed", "please join",
   "zoom link", "meeting link", "interview invitation"]

/-- The `full_content` scanned by `_fallback_classification`:
`lower(subject) ++ " " ++ lower(body or snippet)`. -/
def fullContentOf (e : EmailData) : String :=
  lowerStr e.subject ++ " " ++ lowerStr (if e.body ≠ "" then e.body else e.snippet)

/-- `_fallback_classification` of src/ai_email_classifier.py (lines 186-230):
rule-based cascade over `lower(subject) ++ " " ++ lower(body or snippet)`.
The lowercased `from` field is computed by the source but never used. -/
def fallbackClassification (e : EmailData) : EmailClassification :=
  let fullContent := fullContentOf e
  if promotionalIndicators.any (fun k => containsStr k fullContent) then
    { category := "promotional", confidence := 4/5,
      reasoning := "Rule-based: Contains promotional keywords",
      status_suggestion := "applied" }
  else if interviewIndicators.any (fun k => containsStr k fullContent) then
    { category := "job_interview", confidence := 7/10,
      reasoning := "Rule-based: Contains interview scheduling keywords",
      interview_scheduled := true,
      status_suggestion := "interview_scheduled" }
  else
    { category := "job_application", confidence := 3/5,
      reasoning := "Rule-based: Appears job-related but unclear type",
      status_suggestion := "applied" }

/-- `_create_fallback_classification` of src/ai_email_classifier.py. -/
def createFallbackClassification (reason : String) : EmailClassification :=
  { category := "irrelevant", confidence := 3/10,
    reasoning := "Fallback classification: " ++ reason,
    status_suggestion := "applied" }

/-- The JSON-object fields read by `_parse_ai_response` via `result.get`;
`none` models an absent key.  The confidence field carries the outcome of
`float(...)` on the raw JSON value: `.error` models a raised conversion
exception (e.g. a non-numeric string). -/
structure AIJson where
  category : Option String := none
  confidence : Option (Except Unit ℚ) := none
  reasoning : Option String := none
  company : Option String := none
  role : Option String := none
  interview_scheduled : Option Bool := none
  status_suggestion : Option String := none

/-- Outcome of `json.loads` on the cleaned AI response text. -/
inductive JsonParse where
  | malformed : JsonParse
  | parsed : AIJson → JsonParse

/-- `_parse_ai_response` of src/ai_email_classifier.py (lines 155-184):
a JSON decode failure and any exception while building the result (here, a
failing `float()` conversion) are caught locally and mapped to
`_create_fallback_classification`. -/
def parseAiResponse (p : JsonParse) : EmailClassification :=
  match p with
  | .malformed => createFallbackClassification "AI parsing error"
  | .parsed j =>
    match j.confidence with
    | some (.error _) => createFallbackClassification "AI response error"
    | some (.ok q) =>
      { category := j.category.getD "irrelevant", confidence := q,
        reasoning := j.reasoning.getD "AI classification",
        company := j.company, role := j.role,
        interview_scheduled := j.interview_scheduled.getD false,
        status_suggestion := j.status_suggestion.getD "applied" }
    | none =>
      { category := j.category.getD "irrelevant", confidence := 1/2,
        reasoning := j.reasoning.getD "AI classification",
        company := j.company, role := j.role,
        interview_scheduled := j.interview_scheduled.getD false,
        status_suggestion := j.status_suggestion.getD "applied" }

/-- `classify_email` of src/ai_email_classifier.py (lines 65-95).
`hasModel` is `self.model is not None`; `aiCall` models the
`generate_content` call followed by response-text cleanup: `.error` is an
exception raised by the call (caught by the outer handler, which falls back
to the rule-based classifier), `.ok .malformed` a JSON decode failure inside
`_parse_ai_response`. -/
def classify_email (hasModel : Bool) (e : EmailData)
    (aiCall : Except Unit JsonParse) : EmailClassification :=
  if !hasModel then fallbackClassification e
  else
    match aiCall with
    | .error _ => fallbackClassification e
    | .ok p => parseAiResponse p

/-! ### Status-inference cascade and record build of the ingestion loop -/

/-- Interview-scheduling keywords of src/app.py lines 320-324. -/
def schedulingKeywords : List String :=
  ["interview scheduled", "interview confirmed", "interview invitation",
   "please join", "zoom link", "meeting link", "interview tomorrow",
   "interview on", "interview at", "confirmed interview"]

/-- Offer keywords of src/app.py lines 326-328. -/
def offerKeywords : List String :=
  ["congratulations", "offer", "selected", "hired"]

/-- Rejection keywords of src/app.py lines 330-332. -/
def rejectionKeywords : List String :=
  ["rejected", "unfortunately", "not selected", "not moving forward"]

/-- Screening keywords of src/app.py lines 334-336. -/
def screeningKeywords : List String :=
  ["screening", "phone screen", "initial call"]

/-- Status inference of the ingestion loop (src/app.py lines 315-337): start
from the AI status suggestion (`"applied"` when falsy), then an if / elif
chain over the lowercased subject-plus-body. -/
def computeStatus (ai : EmailClassification) (subject body : String)
    (interviewDates : List Int) : String :=
  let status0 := if ai.status_suggestion ≠ "" then ai.status_suggestion else "applied"
  let contentLower := lowerStr (subject ++ " " ++ body)
  if schedulingKeywords.any (fun k => containsStr k contentLower)
      && !interviewDates.isEmpty then "interview_scheduled"
  else if offerKeywords.any (fun k => containsStr k contentLower) then "offer"
  else if rejectionKeywords.any (fun k => containsStr k contentLower) then "rejected"
  else if screeningKeywords.any (fun k => containsStr k contentLower) then
    "interview_scheduled"
  else status0

/-- The fields of `parsed_data` (`parse_interview_email`) used by the
ingestion loop; interview dates are integer timestamps. -/
structure ParsedData where
  message_id : Option String := none
  subject : String := ""
  emailFrom : String := ""
  snippet : String := ""
  body : String := ""
  company : Option String := none
  role : Option String := none
  interview_dates : List Int := []

/-- The database record dict built by the ingestion loop (src/app.py lines
340-356): keys paired with nullable values; the first extracted interview
date is attached when present and the classification or computed status calls
for it. -/
def buildRecord (p : ParsedData) (ai : EmailClassification) (status : String) :
    List (String × Option String) :=
  let base : List (String × Option String) :=
    [("msg_id", p.message_id),
     ("company", pyOr ai.company p.company),
     ("role", pyOr ai.role p.role),
     ("source", some "gmail"),
     ("status", some status),
     ("snippet", some p.snippet),
     ("email_subject", some p.subject),
     ("email_from", some p.emailFrom)]
  match p.interview_dates with
  | [] => base
  | d :: _ =>
    if ai.interview_scheduled || status = "interview_scheduled" then
      base ++ [("interview_date", some (toString d)),
               ("interview_round", some "unknown")]
    else base

/-- One iteration of the ingestion loop after parsing and classification
(src/app.py lines 305-358): categories `promotional` and `other` are skipped,
every other category leads to a record build and upsert.  `none` means the
email is discarded with no upsert. -/
def processEmail (p : ParsedData) (ai : EmailClassification) :
    Option (List (String × Option String)) :=
  if ai.category = "promotional" then none
  else if ai.category = "other" then none
  else some (buildRecord p ai (computeStatus ai p.subject p.body p.interview_dates))

/-! ### The applications table and `upsert_application` -/

/-- A row of the `applications` table (src/db_utils.py lines 39-57): the
generated integer id plus a column-to-nullable-value assignment. -/
structure Row where
  id : Nat
  cols : String → Option String

/-- Python dict assignment `rec[k] = v`: replace the binding in place, or
append a new one. -/
def setKey (rec : List (String × Option String)) (k : String)
    (v : Option String) : List (String × Option String) :=
  if rec.any (fun q => q.1 = k) then
    rec.map (fun q => if q.1 = k then (k, v) else q)
  else rec ++ [(k, v)]

/-- Column values of a freshly inserted row (`_insert_new_record`): the
record values where given, otherwise the schema defaults of `init_db`. -/
def insertCols (rec : List (String × Option String)) (now : String) :
    String → Option String :=
  fun c =>
    match rec.lookup c with
    | some v => v
    | none =>
      if c = "created_at" || c = "updated_at" then some now
      else if c = "status" then some "applied"
      else if c = "source" then some "manual"
      else none

/-- The UPDATE branch of `upsert_application` (src/db_utils.py lines
105-125): every key of the record except `id` overwrites the row column of
the same name; the generated id is untouched. -/
def applyUpdate (rec : List (String × Option String)) (r : Row) : Row :=
  { id := r.id,
    cols := fun c =>
      if c = "id" then r.cols c
      else
        match rec.lookup c with
        | some v => v
        | none => r.cols c }

/-- Python truthiness of `record.get('msg_id')`: the msg_id key, when present
with a non-null, non-empty value. -/
def msgIdKey (rec : List (String × Option String)) : Option String :=
  match rec.lookup "msg_id" with
  | some (some m) => if m = "" then none else some m
  | _ => none

/-- `upsert_application` (src/db_utils.py lines 76-141) over the in-memory
table: set `updated_at` on the record, then, when the record carries a truthy
`msg_id`, update every row matching that msg_id in place, else insert a new
row with the next generated id (dates are assumed already rendered to
strings, as the source does with `isoformat`). -/
def upsert_application (db : List Row) (rec : List (String × Option String))
    (now : String) (newId : Nat) : List Row :=
  let rec2 := setKey rec "updated_at" (some now)
  match msgIdKey rec2 with
  | some m =>
    match db.find? (fun r => r.cols "msg_id" = some m) with
    | some _ =>
        db.map (fun r => if r.cols "msg_id" = some m then applyUpdate rec2 r else r)
    | none => db ++ [{ id := newId, cols := insertCols rec2 now }]
  | none => db ++ [{ id := newId, cols := insertCols rec2 now }]

/-! ### `extract_dates` -/

/-- One day of the `timedelta(days=1)` grace window, in seconds. -/
def oneDay : Int := 86400

/-- The body of the parse loop of `extract_dates` (src/parser_utils.py lines
74-96) for one candidate phrase.  `dateparse` models `dateparser.parse`
(`.error` = raised ValueError/TypeError, `.ok none` = returned None);
`dateutilParse` models the stricter fallback `dateutil.parser.parse`
(`.error` = raised).  On either path a parsed date is kept only when it is
later than `ref - 1 day`. -/
def parseCandidate (dateparse : String → Except Unit (Option Int))
    (dateutilParse : String → Except Unit Int) (ref : Int) (s : String) :
    List Int :=
  match dateparse s with
  | .ok (some d) => if ref - oneDay < d then [d] else []
  | .ok none => []
  | .error _ =>
    match dateutilParse s with
    | .ok d => if ref - oneDay < d then [d] else []
    | .error _ => []

/-- `extract_dates` (src/parser_utils.py lines 16-102) downstream of
candidate-phrase collection (the regex and month-window scan that turns the
input text into candidate strings): parse every candidate on the two-parser
path, filter stale dates, deduplicate (`list(set(dates))`) and sort
ascending. -/
def extract_dates (dateparse : String → Except Unit (Option Int))
    (dateutilParse : String → Except Unit Int) (ref : Int)
    (candidates : List String) : List Int :=
  List.insertionSort (· ≤ ·)
    ((candidates.map (parseCandidate dateparse dateutilParse ref)).flatten.dedup)

/-! ### `extract_company` -/

/-- `a` is a suffix of `b`, as an executable Bool. -/
def isSuffixCh (a b : List Char) : Bool :=
  isPrefixCh a.reverse b.reverse

/-- Python `str.strip()`: whitespace removed at both ends. -/
def stripStr (s : String) : String :=
  String.mk (((s.toList.dropWhile Char.isWhitespace).reverse.dropWhile
    Char.isWhitespace).reverse)

/-- Model of `email.utils.parseaddr` for the header shapes this pipeline
sees, `Display Name <addr>` and bare `addr`: returns (display name,
address). -/
def parseaddr (s : String) : String × String :=
  let cs := s.toList
  if cs.contains '<' then
    let name := cs.takeWhile (fun c => c ≠ '<')
    let rest := (cs.dropWhile (fun c => c ≠ '<')).drop 1
    (stripStr (String.mk name), String.mk (rest.takeWhile (fun c => c ≠ '>')))
  else ("", s)

/-- Python `s.split('@')[-1]`: the part after the last `@` (the whole string
when no `@` occurs). -/
def afterLastAt (s : String) : String :=
  String.mk ((s.toList.reverse.takeWhile (fun c => c ≠ '@')).reverse)

/-- `re.sub` of an anchored alternation of TLD suffixes: the leftmost match
wins, which for suffix alternatives is the longest listed suffix; `alts` is
ordered longest first. -/
def stripSuffixAlts (alts : List (List Char)) (cs : List Char) : List Char :=
  match alts.find? (fun a => isSuffixCh a cs) with
  | some a => cs.take (cs.length - a.length)
  | none => cs

/-- `re.sub(r'^www\.', '', s)`. -/
def stripWww (cs : List Char) : List Char :=
  if isPrefixCh "www.".toList cs then cs.drop 4 else cs

/-- Python `.replace('_', ' ').replace('-', ' ')`. -/
def underscoreDashToSpace (cs : List Char) : List Char :=
  cs.map (fun c => if c = '_' || c = '-' then ' ' else c)

/-- Python `str.title()`: an alphabetic character is uppercased when not
preceded by an alphabetic character, lowercased otherwise. -/
def titleCh : Bool → List Char → List Char
  | _, [] => []
  | prevAlpha, c :: cs =>
    (if c.isAlpha then (if prevAlpha then c.toLower else c.toUpper) else c)
      :: titleCh c.isAlpha cs

/-- Python `str.title()` on strings. -/
def pyTitle (s : String) : String := String.mk (titleCh false s.toList)

/-- The personal-mail-provider set of `extract_company_from_email`
(src/parser_utils.py lines 127-130). -/
def commonProviders : List String :=
  ["gmail.com", "yahoo.com", "outlook.com", "hotmail.com",
   "aol.com", "icloud.com", "protonmail.com", "zoho.com"]

/-- TLD alternation of `extract_company_from_email` line 139, longest
alternative first. -/
def tldAlts1 : List (List Char) :=
  [".co.uk".toList, ".tech".toList, ".com".toList, ".org".toList,
   ".net".toList, ".edu".toList, ".gov".toList, ".co".toList,
   ".io".toList, ".ai".toList]

/-- TLD alternation of `extract_company` line 235 (strategy 3), longest
alternative first. -/
def tldAlts2 : List (List Char) :=
  [".co.uk".toList, ".com".toList, ".org".toList, ".net".toList,
   ".edu".toList, ".gov".toList, ".co".toList, ".io".toList]

/-- The domain-to-company cleanup shared by both extraction sites: lowercase,
strip `www.`, strip the TLD, map `_` and `-` to spaces, title-case. -/
def domainToCompany (alts : List (List Char)) (domain : String) : String :=
  pyTitle (String.mk (underscoreDashToSpace
    (stripSuffixAlts alts (stripWww (lowerStr domain).toList))))

/-- `extract_company_from_email` (src/parser_utils.py lines 105-145). -/
def extract_company_from_email (fromHeader : String) : Option String :=
  if fromHeader = "" then none
  else
    let parsed := parseaddr fromHeader
    let emailAddress := if parsed.2 ≠ "" then parsed.2 else fromHeader
    let domain :=
      if containsStr "@" emailAddress then afterLastAt emailAddress else emailAddress
    if commonProviders.contains (lowerStr domain) then none
    else some (domainToCompany tldAlts1 domain)

/-- The three personal providers named at src/parser_utils.py line 223. -/
def personalProviders3 : List String :=
  ["gmail.com", "yahoo.com", "outlook.com"]

/-- The segment before the first occurrence of `needle` (the whole list when
`needle` does not occur), i.e. Python `s.split(needle)[0]`. -/
def takeBefore (needle : List Char) : List Char → List Char
  | [] => []
  | c :: cs =>
    if isPrefixCh needle (c :: cs) then [] else c :: takeBefore needle cs

/-- Python `display_name.lower().split('recruiter')[0]`. -/
def beforeRecruiter (s : String) : String :=
  String.mk (takeBefore "recruiter".toList (lowerStr s).toList)

/-- `extract_company` (src/parser_utils.py lines 193-241).  The regex-based
strategy 2, `extract_company_from_text`, is supplied as an oracle parameter
`ct` standing for the regex engine over the source patterns; strategies 1 and
3 are translated from the source.  A strategy result is accepted when truthy
(Python `if company:`). -/
def extract_company (ct : String → String → Option String)
    (fromHeader subject body : String) : Option String :=
  let s1 := extract_company_from_email fromHeader
  if pyTruthy s1 then s1
  else
    let s2 := ct subject body
    if pyTruthy s2 then s2
    else if fromHeader ≠ "" && containsStr "@" fromHeader then
      let parsed := parseaddr fromHeader
      let emailAddress := if parsed.2 ≠ "" then parsed.2 else fromHeader
      let domain := afterLastAt emailAddress
      if personalProviders3.contains (lowerStr domain) then
        let displayName := parsed.1
        if containsStr "recruiter" (lowerStr displayName) then
          let parts := stripStr (beforeRecruiter displayName)
          if parts ≠ "" then some (pyTitle parts) else none
        else none
      else some (domainToCompany tldAlts2 domain)
    else none

/-! ### Lemmas about the upsert model -/

/-- Lookup of `k'` through the replace branch of `setKey k` is unchanged when
`k' ≠ k`. -/
theorem lookup_map_setKey (k k' : String) (v : Option String) (h : k' ≠ k) :
    ∀ t : List (String × Option String),
      (t.map (fun q => if q.1 = k then (k, v) else q)).lookup k' = t.lookup k' := by
  intro t
  induction t with
  | nil => rfl
  | cons q t ih =>
    obtain ⟨qk, qv⟩ := q
    by_cases hq : qk = k
    · simp only [List.map_cons]
      dsimp only
      rw [if_pos hq]
      simp only [List.lookup]
      rw [show (k' == k) = false from beq_eq_false_iff_ne.mpr h,
        show (k' == qk) = false from beq_eq_false_iff_ne.mpr (hq ▸ h)]
      exact ih
    · simp only [List.map_cons]
      dsimp only
      rw [if_neg hq]
      simp only [List.lookup]
      cases hbe : k' == qk
      · exact ih
      · rfl

/-- Lookup of `k'` through an appended `(k, v)` binding is unchanged when
`k' ≠ k`. -/
theorem lookup_append_single_ne (k k' : String) (v : Option String) (h : k' ≠ k) :
    ∀ t : List (String × Option String),
      (t ++ [(k, v)]).lookup k' = t.lookup k' := by
  intro t
  induction t with
  | nil =>
    simp only [List.nil_append, List.lookup,
      show (k' == k) = false from beq_eq_false_iff_ne.mpr h]
  | cons q t ih =>
    obtain ⟨qk, qv⟩ := q
    simp only [List.cons_append, List.lookup]
    cases hbe : k' == qk
    · exact ih
    · rfl

/-- Lookup of `k'` through `setKey k v` is unchanged when `k' ≠ k`. -/
theorem lookup_setKey_ne (rec : List (String × Option String)) (k k' : String)
    (v : Option String) (h : k' ≠ k) :
    (setKey rec k v).lookup k' = rec.lookup k' := by
  unfold setKey
  split
  · exact lookup_map_setKey k k' v h rec
  · exact lookup_append_single_ne k k' v h rec

/-- Setting `updated_at` does not change the msg_id key. -/
theorem msgIdKey_setKey (rec : List (String × Option String)) (v : Option String) :
    msgIdKey (setKey rec "updated_at" v) = msgIdKey rec := by
  unfold msgIdKey
  rw [lookup_setKey_ne rec "updated_at" "msg_id" v (by decide)]

/-- A truthy msg_id is a present, non-null, non-empty `msg_id` value. -/
theorem msgIdKey_eq_some (rec : List (String × Option String)) (m : String)
    (h : msgIdKey rec = some m) :
    rec.lookup "msg_id" = some (some m) ∧ m ≠ "" := by
  unfold msgIdKey at h
  rcases hl : rec.lookup "msg_id" with _ | mv
  · simp [hl] at h
  · simp only [hl] at h
    cases mv with
    | none => simp at h
    | some mval =>
      dsimp only at h
      by_cases he : mval = ""
      · rw [if_pos he] at h; cases h
      · rw [if_neg he] at h
        injection h with h2
        subst h2
        exact ⟨rfl, he⟩

/-- The generated id is untouched by the update branch. -/
theorem applyUpdate_id (rec : List (String × Option String)) (r : Row) :
    (applyUpdate rec r).id = r.id := rfl

/-- A column whose key is carried by the record receives the record's value
on update. -/
theorem applyUpdate_cols_of_lookup (rec : List (String × Option String))
    (r : Row) (c : String) (v : Option String) (hc : c ≠ "id")
    (hv : rec.lookup c = some v) : (applyUpdate rec r).cols c = v := by
  unfold applyUpdate
  dsimp only
  rw [if_neg hc, hv]

/-- A column whose key is absent from the record keeps its value on update. -/
theorem applyUpdate_cols_of_lookup_none (rec : List (String × Option String))
    (r : Row) (c : String) (hv : rec.lookup c = none) :
    (applyUpdate rec r).cols c = r.cols c := by
  unfold applyUpdate
  dsimp only
  by_cases hc : c = "id"
  · rw [if_pos hc]
  · rw [if_neg hc, hv]

/-- The update pass of the upsert preserves whether a row matches the msg_id
under consideration. -/
theorem upd_pres_msgId (rec2 : List (String × Option String)) (m : String)
    (hl2 : rec2.lookup "msg_id" = some (some m)) (r : Row) :
    ((if r.cols "msg_id" = some m then applyUpdate rec2 r else r).cols "msg_id" =
        some m) ↔ r.cols "msg_id" = some m := by
  by_cases hr : r.cols "msg_id" = some m
  · rw [if_pos hr]
    constructor
    · intro _; exact hr
    · intro _
      exact applyUpdate_cols_of_lookup rec2 r "msg_id" (some m) (by decide) hl2
  · rw [if_neg hr]

/-- Boolean form of `upd_pres_msgId`, shaped for `filter_map_pres`. -/
theorem upd_pres_msgId_bool (rec2 : List (String × Option String)) (m : String)
    (hl2 : rec2.lookup "msg_id" = some (some m)) (r : Row) :
    (decide ((if r.cols "msg_id" = some m then applyUpdate rec2 r else r).cols
        "msg_id" = some m)) = decide (r.cols "msg_id" = some m) :=
  decide_eq_decide.mpr (upd_pres_msgId rec2 m hl2 r)

/-- Filtering commutes with a map that preserves the predicate. -/
theorem filter_map_pres {α : Type} (f : α → α) (p : α → Bool)
    (h : ∀ a, p (f a) = p a) :
    ∀ l : List α, (l.map f).filter p = (l.filter p).map f := by
  intro l
  induction l with
  | nil => rfl
  | cons a t ih =>
    simp only [List.map_cons, List.filter_cons, h a]
    cases hp : p a
    · simpa [hp] using ih
    · simp [hp, ih]

/-- `upsert_application` takes the update branch when a row with the truthy
msg_id exists. -/
theorem upsert_eq_update (db : List Row) (rec : List (String × Option String))
    (now : String) (newId : Nat) (m : String)
    (hm2 : msgIdKey (setKey rec "updated_at" (some now)) = some m)
    (r0 : Row) (hf : db.find? (fun r => r.cols "msg_id" = some m) = some r0) :
    upsert_application db rec now newId =
      db.map (fun r => if r.cols "msg_id" = some m
        then applyUpdate (setKey rec "updated_at" (some now)) r else r) := by
  unfold upsert_application
  simp only [hm2, hf]

/-- `upsert_application` takes the insert branch when no row with the truthy
msg_id exists. -/
theorem upsert_eq_insert (db : List Row) (rec : List (String × Option String))
    (now : String) (newId : Nat) (m : String)
    (hm2 : msgIdKey (setKey rec "updated_at" (some now)) = some m)
    (hf : db.find? (fun r => r.cols "msg_id" = some m) = none) :
    upsert_application db rec now newId =
      db ++ [{ id := newId,
               cols := insertCols (setKey rec "updated_at" (some now)) now }] := by
  unfold upsert_application
  simp only [hm2, hf]

/-- One upsert against a table with no row for the msg_id: the new row is
inserted and becomes the unique row for that msg_id. -/
theorem upsert_step_empty (db : List Row) (rec : List (String × Option String))
    (now : String) (newId : Nat) (m : String)
    (hm2 : msgIdKey (setKey rec "updated_at" (some now)) = some m)
    (hfe : db.filter (fun r => r.cols "msg_id" = some m) = []) :
    (upsert_application db rec now newId).filter
        (fun r => r.cols "msg_id" = some m) =
      [{ id := newId, cols := insertCols (setKey rec "updated_at" (some now)) now }] := by
  have hl2 : (setKey rec "updated_at" (some now)).lookup "msg_id" = some (some m) :=
    (msgIdKey_eq_some _ m hm2).1
  have hfind : db.find? (fun r => r.cols "msg_id" = some m) = none := by
    rw [List.find?_eq_none]
    intro x hx hpx
    have hxf : x ∈ db.filter (fun r => r.cols "msg_id" = some m) :=
      List.mem_filter.mpr ⟨hx, hpx⟩
    rw [hfe] at hxf
    exact absurd hxf (List.not_mem_nil x)
  have hpnew : insertCols (setKey rec "updated_at" (some now)) now "msg_id" = some m := by
    unfold insertCols
    rw [hl2]
  rw [upsert_eq_insert db rec now newId m hm2 hfind, List.filter_append, hfe]
  simp [hpnew]

/-- One upsert against a table whose unique row for the msg_id is `rx`: the
row is updated in place and stays the unique row for that msg_id. -/
theorem upsert_step_singleton (db : List Row) (rec : List (String × Option String))
    (now : String) (newId : Nat) (m : String) (rx : Row)
    (hm2 : msgIdKey (setKey rec "updated_at" (some now)) = some m)
    (hfs : db.filter (fun r => r.cols "msg_id" = some m) = [rx]) :
    (upsert_application db rec now newId).filter
        (fun r => r.cols "msg_id" = some m) =
      [applyUpdate (setKey rec "updated_at" (some now)) rx] := by
  have hl2 : (setKey rec "updated_at" (some now)).lookup "msg_id" = some (some m) :=
    (msgIdKey_eq_some _ m hm2).1
  have hrx_mem : rx ∈ db.filter (fun r => r.cols "msg_id" = some m) := by
    rw [hfs]; exact List.mem_singleton_self rx
  have hprx : rx.cols "msg_id" = some m := by
    have := (List.mem_filter.mp hrx_mem).2
    simpa using this
  rcases hfind : db.find? (fun r => r.cols "msg_id" = some m) with _ | r0
  · exfalso
    have := List.find?_eq_none.mp hfind rx (List.mem_filter.mp hrx_mem).1
    simp [hprx] at this
  · rw [upsert_eq_update db rec now newId m hm2 r0 hfind,
      filter_map_pres _ _ (upd_pres_msgId_bool _ m hl2) db, hfs]
    simp only [List.map_cons, List.map_nil]
    rw [if_pos hprx]

/-! ## Claims -/

/-- C1 (code evaluated at the failing input): an email whose classification
category is `irrelevant` — here the classifier's own AI-parse-failure stub —
is NOT discarded by the ingestion loop.  `processEmail` builds a record and
proceeds to the upsert, because the loop's second skip check (src/app.py line
308) compares the category against `"other"`, a value the classifier's
documented category set never contains, instead of `"irrelevant"`. -/
theorem C1_irrelevant_email_not_discarded :
    (createFallbackClassification "AI parsing error").category = "irrelevant" ∧
    (processEmail {} (createFallbackClassification "AI parsing error")).isSome = true := by
  exact ⟨rfl, by decide⟩

/-- C2 counterexample: an email whose text contains both rejection language
("unfortunately") and screening language ("phone screen"), matching neither
the offer override nor the interview-scheduling-with-date override, computes
status `"rejected"`, not `"interview_scheduled"`: in src/app.py lines 320-337
the four checks form an if/elif chain, so the earlier rejection check wins
over the later screening check. -/
theorem C2_counterexample :
    computeStatus (createFallbackClassification "x") ""
      "unfortunately we invite you to a phone screen" [] = "rejected" ∧
    computeStatus (createFallbackClassification "x") ""
      "unfortunately we invite you to a phone screen" [] ≠ "interview_scheduled" := by
  exact ⟨by decide, by decide⟩

/-- C2 amended: the four override checks of the status-inference cascade form
an if/elif chain evaluated in source order (b, c, d, e) in which the EARLIEST
match wins; in particular, for every email whose text contains rejection
language (and also screening language) and which matches neither the offer
override nor the interview-scheduling-with-date override, the computed status
is `"rejected"` — (d) wins over (e). -/
theorem C2_amended_first_match_wins (ai : EmailClassification)
    (subject body : String) (dates : List Int)
    (hb : (schedulingKeywords.any (fun k =>
        containsStr k (lowerStr (subject ++ " " ++ body))) && !dates.isEmpty) = false)
    (hc : offerKeywords.any (fun k =>
        containsStr k (lowerStr (subject ++ " " ++ body))) = false)
    (hd : rejectionKeywords.any (fun k =>
        containsStr k (lowerStr (subject ++ " " ++ body))) = true)
    (_he : screeningKeywords.any (fun k =>
        containsStr k (lowerStr (subject ++ " " ++ body))) = true) :
    computeStatus ai subject body dates = "rejected" := by
  simp only [computeStatus, hb, hc, hd]
  simp

/-- C2 amended, witnessed at a concrete input. -/
theorem C2_amended_witness :
    computeStatus (createFallbackClassification "y") "Application update"
      "unfortunately, after the phone screen we paused" [] = "rejected" :=
  C2_amended_first_match_wins (createFallbackClassification "y") "Application update"
    "unfortunately, after the phone screen we paused" []
    (by decide) (by decide) (by decide) (by decide)

/-- C3: upsert is idempotent per msg_id.  For every record carrying a truthy
msg_id `m` (present, non-null, non-empty — the condition
`record.get('msg_id')` tests) and every table holding at most one row for
`m`, running `upsert_application` twice leaves exactly one row for `m`; that
row has the same generated id as after the first upsert (update-in-place,
no second record), and every column named by the record (plus `updated_at`,
which the upsert sets) holds the value written by the latest upsert. -/
theorem C3_upsert_idempotent (db : List Row) (rec : List (String × Option String))
    (now1 now2 : String) (id1 id2 : Nat) (m : String)
    (hm : msgIdKey rec = some m)
    (hinv : (db.filter (fun r => r.cols "msg_id" = some m)).length ≤ 1) :
    ((upsert_application (upsert_application db rec now1 id1) rec now2 id2).filter
        (fun r => r.cols "msg_id" = some m)).length = 1 ∧
    ∀ r2 ∈ (upsert_application (upsert_application db rec now1 id1) rec now2 id2).filter
        (fun r => r.cols "msg_id" = some m),
      (∀ r1 ∈ (upsert_application db rec now1 id1).filter
          (fun r => r.cols "msg_id" = some m), r2.id = r1.id) ∧
      ∀ c v, c ≠ "id" → (setKey rec "updated_at" (some now2)).lookup c = some v →
        r2.cols c = v := by
  have hm1 : msgIdKey (setKey rec "updated_at" (some now1)) = some m := by
    rw [msgIdKey_setKey]; exact hm
  have hm2 : msgIdKey (setKey rec "updated_at" (some now2)) = some m := by
    rw [msgIdKey_setKey]; exact hm
  rcases hc : db.filter (fun r => r.cols "msg_id" = some m) with _ | ⟨rx, rest⟩
  · have h1 := upsert_step_empty db rec now1 id1 m hm1 hc
    have h2 := upsert_step_singleton (upsert_application db rec now1 id1)
      rec now2 id2 m _ hm2 h1
    refine ⟨by rw [h2]; rfl, ?_⟩
    intro r2 hr2
    rw [h2, List.mem_singleton] at hr2
    subst hr2
    refine ⟨?_, ?_⟩
    · intro r1 hr1
      rw [h1, List.mem_singleton] at hr1
      subst hr1
      rfl
    · intro c v hcne hv
      exact applyUpdate_cols_of_lookup _ _ c v hcne hv
  · have hrest : rest = [] := by
      rw [hc] at hinv
      cases rest with
      | nil => rfl
      | cons a t =>
        exfalso
        simp [List.length_cons] at hinv
    subst hrest
    have h1 := upsert_step_singleton db rec now1 id1 m rx hm1 hc
    have h2 := upsert_step_singleton (upsert_application db rec now1 id1)
      rec now2 id2 m _ hm2 h1
    refine ⟨by rw [h2]; rfl, ?_⟩
    intro r2 hr2
    rw [h2, List.mem_singleton] at hr2
    subst hr2
    refine ⟨?_, ?_⟩
    · intro r1 hr1
      rw [h1, List.mem_singleton] at hr1
      subst hr1
      rfl
    · intro c v hcne hv
      exact applyUpdate_cols_of_lookup _ _ c v hcne hv

/-- C3, witnessed at a concrete input: upserting the same msg_id record twice
into an empty table yields exactly one matching row. -/
theorem C3_witness :
    ((upsert_application (upsert_application []
        [("msg_id", some "abc123"), ("company", some "Google")] "t1" 1)
        [("msg_id", some "abc123"), ("company", some "Google")] "t2" 2).filter
      (fun r => r.cols "msg_id" = some "abc123")).length = 1 :=
  (C3_upsert_idempotent [] [("msg_id", some "abc123"), ("company", some "Google")]
    "t1" "t2" 1 2 "abc123" (by decide) (by decide)).1

/-- C4: `classify_email` is total with respect to collaborator failures.  In
the embedding every failure mode of the AI path is an explicit value: the
classifier value is always one of the rule-based fallback (`model` missing,
or the AI call raising), the two parse-failure stubs, or the parse of a
successfully returned JSON object — never a propagated error (the return
type is `EmailClassification`, not an error monad, matching the source's
catch-all handlers). -/
theorem C4_classify_email_total (hasModel : Bool) (e : EmailData)
    (aiCall : Except Unit JsonParse) :
    classify_email hasModel e aiCall = fallbackClassification e ∨
    classify_email hasModel e aiCall = createFallbackClassification "AI parsing error" ∨
    classify_email hasModel e aiCall = createFallbackClassification "AI response error" ∨
    ∃ j, aiCall = Except.ok (.parsed j) ∧
      classify_email hasModel e aiCall = parseAiResponse (.parsed j) := by
  cases hasModel with
  | false => exact Or.inl rfl
  | true =>
    cases aiCall with
    | error u => exact Or.inl rfl
    | ok p =>
      cases p with
      | malformed => exact Or.inr (Or.inl rfl)
      | parsed j => exact Or.inr (Or.inr (Or.inr ⟨j, rfl, rfl⟩))

/-- A key absent from a record's key list looks up to `none`. -/
theorem lookup_eq_none_of_not_mem_keys (rec : List (String × Option String))
    (c : String) (h : c ∉ rec.map Prod.fst) : rec.lookup c = none := by
  induction rec with
  | nil => rfl
  | cons q t ih =>
    obtain ⟨qk, qv⟩ := q
    simp only [List.map_cons, List.mem_cons] at h
    push_neg at h
    simp only [List.lookup]
    rw [show (c == qk) = false from beq_eq_false_iff_ne.mpr h.1]
    exact ih h.2

/-- The ingestion record carries exactly the eight base columns, plus the two
interview columns when a date is attached — never `id` or `created_at`. -/
theorem buildRecord_keys (p : ParsedData) (ai : EmailClassification)
    (status : String) :
    (buildRecord p ai status).map Prod.fst =
      ["msg_id", "company", "role", "source", "status", "snippet",
       "email_subject", "email_from"] ∨
    (buildRecord p ai status).map Prod.fst =
      ["msg_id", "company", "role", "source", "status", "snippet",
       "email_subject", "email_from", "interview_date", "interview_round"] := by
  unfold buildRecord
  cases hd : p.interview_dates with
  | nil => left; rfl
  | cons d t =>
    dsimp only
    split
    · right; rfl
    · left; rfl

/-- C9: frame property of the update branch of `upsert_application` applied
to the ingestion loop's record: the record (after the upsert sets
`updated_at`) contains no `id` or `created_at` key, so the update leaves the
row's generated id, its `id` column and its `created_at` column unchanged;
more generally every column whose key is absent from the record keeps its
previous value. -/
theorem C9_update_frame (p : ParsedData) (ai : EmailClassification)
    (status : String) (now : String) (r : Row) :
    ((setKey (buildRecord p ai status) "updated_at" (some now)).lookup "id" = none ∧
      (setKey (buildRecord p ai status) "updated_at" (some now)).lookup
        "created_at" = none) ∧
    (applyUpdate (setKey (buildRecord p ai status) "updated_at" (some now)) r).id =
      r.id ∧
    (applyUpdate (setKey (buildRecord p ai status) "updated_at" (some now)) r).cols
      "id" = r.cols "id" ∧
    (applyUpdate (setKey (buildRecord p ai status) "updated_at" (some now)) r).cols
      "created_at" = r.cols "created_at" ∧
    ∀ c, (setKey (buildRecord p ai status) "updated_at" (some now)).lookup c = none →
      (applyUpdate (setKey (buildRecord p ai status) "updated_at" (some now)) r).cols
        c = r.cols c := by
  have hid : (setKey (buildRecord p ai status) "updated_at" (some now)).lookup
      "id" = none := by
    rw [lookup_setKey_ne _ _ _ _ (by decide)]
    apply lookup_eq_none_of_not_mem_keys
    rcases buildRecord_keys p ai status with h | h <;> rw [h] <;> decide
  have hca : (setKey (buildRecord p ai status) "updated_at" (some now)).lookup
      "created_at" = none := by
    rw [lookup_setKey_ne _ _ _ _ (by decide)]
    apply lookup_eq_none_of_not_mem_keys
    rcases buildRecord_keys p ai status with h | h <;> rw [h] <;> decide
  refine ⟨⟨hid, hca⟩, rfl, ?_, ?_, ?_⟩
  · unfold applyUpdate
    dsimp only
    rw [if_pos rfl]
  · exact applyUpdate_cols_of_lookup_none _ r "created_at" hca
  · intro c hcl
    exact applyUpdate_cols_of_lookup_none _ r c hcl

/-- C9, witnessed at a concrete input: the `notes` column (absent from the
ingestion record) survives an update unchanged. -/
theorem C9_witness :
    (applyUpdate (setKey (buildRecord {} (createFallbackClassification "z") "applied")
        "updated_at" (some "t")) { id := 7, cols := fun _ => none }).cols "notes" =
      ({ id := 7, cols := fun _ => none } : Row).cols "notes" :=
  (C9_update_frame {} (createFallbackClassification "z") "applied" "t"
    { id := 7, cols := fun _ => none }).2.2.2.2 "notes" (by decide)

/-- C10: every Classification produced by the rule-based fallback path has
`company = None` and `role = None`, so the record merge
`classification.company or parsed_email.company` (Python `or`, src/app.py
lines 342-343) reduces to the heuristic extractor's value, and likewise for
`role`. -/
theorem C10_fallback_no_entities (e : EmailData) (pc pr : Option String) :
    (fallbackClassification e).company = none ∧
    (fallbackClassification e).role = none ∧
    pyOr (fallbackClassification e).company pc = pc ∧
    pyOr (fallbackClassification e).role pr = pr := by
  have h : (fallbackClassification e).company = none ∧
      (fallbackClassification e).role = none := by
    unfold fallbackClassification
    dsimp only
    split
    · exact ⟨rfl, rfl⟩
    · split
      · exact ⟨rfl, rfl⟩
      · exact ⟨rfl, rfl⟩
  exact ⟨h.1, h.2, by rw [h.1]; rfl, by rw [h.2]; rfl⟩

/-- C5 counterexample: `_parse_ai_response` stores `float(result.get(
'confidence', 0.5))` without clamping, so an AI response whose JSON carries
`"confidence": 2` produces a Classification with confidence 2, outside
[0, 1]. -/
theorem C5_counterexample :
    (parseAiResponse (.parsed { confidence := some (.ok 2) })).confidence = 2 ∧
    ¬((parseAiResponse (.parsed { confidence := some (.ok 2) })).confidence ≤ 1) := by
  refine ⟨rfl, ?_⟩
  show ¬((2 : ℚ) ≤ 1)
  norm_num

/-- C5 amended: the rule-based fallback path (confidences 0.8 / 0.7 / 0.6),
the AI-failure stub (0.3) and the absent-key default (0.5) all have
confidence within [0, 1]; on the AI-parse path the confidence equals the
AI-reported value unclamped, so there it lies in [0, 1] exactly when the
parsed response's value does. -/
theorem C5_amended_confidence_bound (e : EmailData) (reason : String) (j : AIJson) :
    (0 ≤ (fallbackClassification e).confidence ∧
      (fallbackClassification e).confidence ≤ 1) ∧
    (0 ≤ (createFallbackClassification reason).confidence ∧
      (createFallbackClassification reason).confidence ≤ 1) ∧
    (j.confidence = none → (parseAiResponse (.parsed j)).confidence = 1/2) ∧
    (∀ q, j.confidence = some (.ok q) →
      (parseAiResponse (.parsed j)).confidence = q) := by
  refine ⟨?_, ⟨by norm_num [createFallbackClassification], by norm_num [createFallbackClassification]⟩, ?_, ?_⟩
  · unfold fallbackClassification
    dsimp only
    split
    · constructor <;> norm_num
    · split
      · constructor <;> norm_num
      · constructor <;> norm_num
  · intro h
    simp [parseAiResponse, h]
  · intro q h
    simp [parseAiResponse, h]

/-- C5 amended, witnessed at a concrete input: an in-range AI-reported
confidence passes through unchanged. -/
theorem C5_amended_witness :
    (parseAiResponse (.parsed { confidence := some (.ok (3/4)) })).confidence = 3/4 :=
  (C5_amended_confidence_bound {} "w" { confidence := some (.ok (3/4)) }).2.2.2 (3/4) rfl

/-- Both parse paths of `parseCandidate` admit a date only when it clears the
staleness bound. -/
theorem parseCandidate_bound (dateparse : String → Except Unit (Option Int))
    (dateutilParse : String → Except Unit Int) (ref : Int) (s : String)
    (d : Int) (hd : d ∈ parseCandidate dateparse dateutilParse ref s) :
    ref - oneDay < d := by
  rcases hp : dateparse s with u | o
  · simp only [parseCandidate, hp] at hd
    rcases hq : dateutilParse s with v | t
    · simp [hq] at hd
    · simp only [hq] at hd
      split at hd
      · rename_i hlt
        rw [List.mem_singleton] at hd
        exact hd ▸ hlt
      · exact absurd hd (List.not_mem_nil d)
  · cases o with
    | none => simp [parseCandidate, hp] at hd
    | some t =>
      simp only [parseCandidate, hp] at hd
      split at hd
      · rename_i hlt
        rw [List.mem_singleton] at hd
        exact hd ▸ hlt
      · exact absurd hd (List.not_mem_nil d)

/-- C6: every timestamp returned by `extract_dates` is strictly later than
`reference_time - 1 day` on both parse paths; the result is deduplicated and
sorted ascending; and when no candidate parses on either path the result is
empty.  The candidate-phrase collection and the two external parsers are
oracle parameters, so the statement holds for every input text. -/
theorem C6_extract_dates_spec (dateparse : String → Except Unit (Option Int))
    (dateutilParse : String → Except Unit Int) (ref : Int)
    (candidates : List String) :
    (∀ d ∈ extract_dates dateparse dateutilParse ref candidates, ref - oneDay < d) ∧
    (extract_dates dateparse dateutilParse ref candidates).Nodup ∧
    (extract_dates dateparse dateutilParse ref candidates).Sorted (· ≤ ·) ∧
    ((∀ s ∈ candidates, dateparse s = Except.ok none ∨
        (dateparse s = Except.error () ∧ dateutilParse s = Except.error ())) →
      extract_dates dateparse dateutilParse ref candidates = []) := by
  unfold extract_dates
  refine ⟨?_, ?_, List.sorted_insertionSort _ _, ?_⟩
  · intro d hd
    rw [(List.perm_insertionSort _ _).mem_iff, List.mem_dedup, List.mem_flatten] at hd
    obtain ⟨l, hl, hdl⟩ := hd
    rw [List.mem_map] at hl
    obtain ⟨s, _, rfl⟩ := hl
    exact parseCandidate_bound dateparse dateutilParse ref s d hdl
  · exact (List.perm_insertionSort _ _).nodup_iff.mpr (List.nodup_dedup _)
  · intro hnp
    have hflat : (candidates.map (parseCandidate dateparse dateutilParse ref)).flatten = [] := by
      rw [List.flatten_eq_nil_iff]
      intro l hl
      rw [List.mem_map] at hl
      obtain ⟨s, hs, rfl⟩ := hl
      rcases hnp s hs with h | ⟨h1, h2⟩
      · unfold parseCandidate; rw [h]
      · unfold parseCandidate; rw [h1, h2]
    rw [hflat]
    rfl

/-- C6, witnessed at a concrete input: a single candidate parsed by the
primary parser to timestamp 100000 with reference time 0 is retained and
satisfies the staleness bound. -/
theorem C6_witness : (0 : Int) - oneDay < 100000 :=
  (C6_extract_dates_spec (fun _ => Except.ok (some 100000))
    (fun _ => Except.error ()) 0 ["jan 15 at 2:00 pm"]).1 100000 (by decide)

/-- C7: the rule-based classifier is a strict first-match cascade over
`full_content`: any promotional keyword yields category `promotional` with
confidence 0.8 even when interview keywords also match; otherwise any
interview keyword yields `job_interview` with confidence 0.7,
`interview_scheduled = true` and status suggestion `interview_scheduled`;
otherwise the result is `job_application` with confidence 0.6 and status
suggestion `applied`. -/
theorem C7_fallback_first_match_cascade (e : EmailData) :
    (promotionalIndicators.any (fun k => containsStr k (fullContentOf e)) = true →
      fallbackClassification e =
        { category := "promotional", confidence := 4/5,
          reasoning := "Rule-based: Contains promotional keywords",
          status_suggestion := "applied" }) ∧
    (promotionalIndicators.any (fun k => containsStr k (fullContentOf e)) = false →
      interviewIndicators.any (fun k => containsStr k (fullContentOf e)) = true →
      fallbackClassification e =
        { category := "job_interview", confidence := 7/10,
          reasoning := "Rule-based: Contains interview scheduling keywords",
          interview_scheduled := true,
          status_suggestion := "interview_scheduled" }) ∧
    (promotionalIndicators.any (fun k => containsStr k (fullContentOf e)) = false →
      interviewIndicators.any (fun k => containsStr k (fullContentOf e)) = false →
      fallbackClassification e =
        { category := "job_application", confidence := 3/5,
          reasoning := "Rule-based: Appears job-related but unclear type",
          status_suggestion := "applied" }) := by
  refine ⟨fun hp => ?_, fun hp hi => ?_, fun hp hi => ?_⟩ <;>
    simp [fallbackClassification, hp, *]

/-- C7, witnessed at a concrete input: an email matching both the promotional
and the interview keyword sets is classified promotional. -/
theorem C7_witness :
    fallbackClassification
      { subject := "Job Alert: interview scheduled for you",
        body := "unsubscribe anytime" } =
      { category := "promotional", confidence := 4/5,
        reasoning := "Rule-based: Contains promotional keywords",
        status_suggestion := "applied" } :=
  (C7_fallback_first_match_cascade _).1 (by decide)

/-- C8 counterexample: for a gmail.com sender whose display name lacks
"recruiter", when domain extraction and text extraction both yield nothing,
`extract_company` returns `none` — not the domain-derived name "Gmail" — so
the claimed raw-domain fallback does not apply to gmail.com (nor yahoo.com /
outlook.com): the source's strategy 3 ends in `return None` for those three
domains. -/
theorem C8_counterexample :
    extract_company_from_email "John <john@gmail.com>" = none ∧
    containsStr "recruiter" (lowerStr "John") = false ∧
    extract_company (fun _ _ => none) "John <john@gmail.com>" "" "" = none := by
  exact ⟨by decide, by decide, by decide⟩

/-- C8 amended: for every from-header on which domain-based extraction
(strategy 1) yields nothing and whose sender domain — computed exactly as the
source's strategy 3 computes it — is a personal-mail provider, and for every
subject and body on which text-pattern extraction (strategy 2) yields
nothing, the raw-domain fallback applies exactly to the providers OUTSIDE
the trio checked at src/parser_utils.py line 223: for hotmail.com, aol.com,
icloud.com, protonmail.com and zoho.com the result is the domain stripped of
its TLD and title-cased, while for gmail.com, yahoo.com and outlook.com with
any display name not containing "recruiter" the result is `none`. -/
theorem C8_amended_raw_domain_fallback (ct : String → String → Option String)
    (fromHeader subject body : String) (dom : String)
    (h1 : extract_company_from_email fromHeader = none)
    (hct : ct subject body = none)
    (hfh : fromHeader ≠ "")
    (hat : containsStr "@" fromHeader = true)
    (hdom : afterLastAt (if (parseaddr fromHeader).2 ≠ "" then (parseaddr fromHeader).2
      else fromHeader) = dom)
    (hrec : containsStr "recruiter" (lowerStr (parseaddr fromHeader).1) = false) :
    (dom ∈ ["hotmail.com", "aol.com", "icloud.com", "protonmail.com", "zoho.com"] →
      extract_company ct fromHeader subject body =
        some (domainToCompany tldAlts2 dom)) ∧
    (dom ∈ ["gmail.com", "yahoo.com", "outlook.com"] →
      extract_company ct fromHeader subject body = none) := by
  have hcond : (fromHeader ≠ "" && containsStr "@" fromHeader) = true := by
    rw [hat, Bool.and_true]
    exact decide_eq_true hfh
  constructor
  · intro hd5
    simp only [extract_company]
    rw [h1, hct, show pyTruthy none = false from rfl]
    rw [if_neg Bool.false_ne_true, if_neg Bool.false_ne_true]
    rw [hcond, if_pos rfl, hdom]
    fin_cases hd5 <;> rw [if_neg (by decide)]
  · intro hd3
    simp only [extract_company]
    rw [h1, hct, show pyTruthy none = false from rfl]
    rw [if_neg Bool.false_ne_true, if_neg Bool.false_ne_true]
    rw [hcond, if_pos rfl, hdom]
    fin_cases hd3 <;>
      rw [if_pos (by decide), hrec, if_neg Bool.false_ne_true]

/-- C8 amended, witnessed at concrete inputs exercising both branches: a
zoho.com sender falls back to the raw domain name, a yahoo.com sender with a
recruiter-free display name yields nothing. -/
theorem C8_amended_witness :
    extract_company (fun _ _ => none) "Jane Doe <jane@zoho.com>" "s" "b" =
      some (domainToCompany tldAlts2 "zoho.com") ∧
    extract_company (fun _ _ => none) "Jane Doe <jane@yahoo.com>" "s" "b" = none :=
  ⟨(C8_amended_raw_domain_fallback (fun _ _ => none) "Jane Doe <jane@zoho.com>"
      "s" "b" "zoho.com" (by decide) rfl (by decide) (by decide) (by decide)
      (by decide)).1 (by decide),
   (C8_amended_raw_domain_fallback (fun _ _ => none) "Jane Doe <jane@yahoo.com>"
      "s" "b" "yahoo.com" (by decide) rfl (by decide) (by decide) (by decide)
      (by decide)).2 (by decide)⟩

end JobTracker
